import Mathlib

set_option maxRecDepth 8000

/-!
Verification of the nydus-snapshotter referrer core: a shallow embedding of
the referrer resolver (`pkg/referrer`), the atomic single-file unpacker
(`pkg/remote/unpack.go`), and the fetch coordinator
(`pkg/filesystem`, `TryFetchMetadata`), with theorems settling the
specification claims.

Conventions of the embedding:
  * Go byte slices are `List Nat` (each element a byte value).
  * Go strings are Lean `String`; `strings.Split(s, ":")` and
    `strings.Join(parts, ":")` are re-implemented character by character
    (`goSplitColon`, `goJoinColon`) so that they follow Go semantics exactly
    and evaluate inside the kernel.
  * The external registry client, the JSON decoder and the label predicate
    are the collaborators listed in the spec as out of scope; they enter the
    model as an explicit environment record (`Env`), one field per external
    operation the source calls.  `fetchReferrers` and `fetchBytes` bundle
    the remote call together with the `io.ReadAll` of its stream (an error
    of either is an error of the bundle).
  * Fallible Go calls become `Except String`, keeping the source's
    `errors.Wrap` context strings.
-/

namespace NydusReferrer

/-- Annotation map of an OCI descriptor (`map[string]string`). -/
abbrev Annotations := List (String × String)

/-- `ocispec.Descriptor`: mediaType, digest, size, annotations. -/
structure Descriptor where
  mediaType : String
  dgst : String
  size : Int
  annotations : Annotations
deriving Repr, DecidableEq

/-- `ocispec.Index`: the referrer index, carrying a manifest list. -/
structure Index where
  manifests : List Descriptor
deriving Repr, DecidableEq

/-- `ocispec.Manifest`: layer list plus optional subject descriptor. -/
structure Manifest where
  layers : List Descriptor
  subject : Option Descriptor
deriving Repr, DecidableEq

/-- The external collaborators consumed by the resolver, one field per
operation of the registry client / JSON decoder / label predicate. -/
structure Env where
  getFetcher : String → Except String Unit
  fetchReferrers : String → Except String (List Nat)
  unmarshalIndex : List Nat → Except String Index
  fetchBytes : Descriptor → Except String (List Nat)
  unmarshalManifest : List Nat → Except String Manifest
  resolve : String → Except String Descriptor
  isNydusMetaLayer : Annotations → Bool

/-- `const maxManifestIndexSize = 0x800000` (8 MiB). -/
def maxManifestIndexSize : Nat := 0x800000

/-- `const metadataNameInLayer = "image/image.boot"`. -/
def metadataNameInLayer : String := "image/image.boot"

/-- Go `strings.Split` on the single character `:`, over char lists. -/
def splitColonChars : List Char → List (List Char)
  | [] => [[]]
  | c :: cs =>
    if c = ':' then
      [] :: splitColonChars cs
    else
      match splitColonChars cs with
      | [] => [[c]]
      | g :: gs => (c :: g) :: gs

/-- Go `strings.Split(s, ":")`. -/
def goSplitColon (s : String) : List String :=
  (splitColonChars s.toList).map List.asString

/-- Go `strings.Join(parts, ":")`. -/
def goJoinColon : List String → String
  | [] => ""
  | [s] => s
  | s :: rest => s ++ ":" ++ goJoinColon rest

/-- `checkReferrerStandard`: standards-based referrer resolution.  Fetches the
referrer index for `manifestDigest`, reads at most `maxManifestIndexSize`
bytes of it (`io.ReadAll(io.LimitReader(rc, maxManifestIndexSize))` — the
`List.take`), unmarshals, requires a non-empty manifest list, fetches the
first listed manifest (`index.Manifests[0]`), and returns its last layer
(`manifest.Layers[len-1]`; the source's `len < 1` guard and the indexing
combine into `List.getLast?`) provided the layer carries the nydus meta-layer
annotation marker. -/
def checkReferrerStandard (env : Env) (ref : String) (manifestDigest : String) :
    Except String Descriptor :=
  match env.getFetcher ref with
  | .error e => .error ("get fetcher: " ++ e)
  | .ok _ =>
    match env.fetchReferrers manifestDigest with
    | .error e => .error ("fetch referrers: " ++ e)
    | .ok resp =>
      let bytes := resp.take maxManifestIndexSize
      match env.unmarshalIndex bytes with
      | .error e => .error ("unmarshal referrers index: " ++ e)
      | .ok index =>
        match index.manifests with
        | [] => .error "empty referrer list"
        | m :: _ =>
          match env.fetchBytes m with
          | .error e => .error ("fetch referrers: " ++ e)
          | .ok mbytes =>
            match env.unmarshalManifest mbytes with
            | .error e => .error ("unmarshal manifest: " ++ e)
            | .ok manifest =>
              match manifest.layers.getLast? with
              | none => .error "invalid manifest"
              | some metaLayer =>
                if env.isNydusMetaLayer metaLayer.annotations then
                  .ok metaLayer
                else
                  .error "invalid nydus manifest"

/-- `validateTagBasedReferrer`: resolve a candidate reference, fetch and parse
its manifest, require `manifest.Subject != nil` and
`manifest.Subject.Digest == expectedSubject`, then require the last layer to
carry the nydus meta-layer marker. -/
def validateTagBasedReferrer (env : Env) (candidateRef : String)
    (expectedSubject : String) : Except String Descriptor :=
  match env.resolve candidateRef with
  | .error e => .error ("resolve reference: " ++ e)
  | .ok desc =>
    match env.getFetcher candidateRef with
    | .error e => .error ("get fetcher: " ++ e)
    | .ok _ =>
      match env.fetchBytes desc with
      | .error e => .error ("fetch manifest: " ++ e)
      | .ok mbytes =>
        match env.unmarshalManifest mbytes with
        | .error e => .error ("unmarshal manifest: " ++ e)
        | .ok manifest =>
          match manifest.subject with
          | none => .error "not a referrer for expected subject"
          | some subj =>
            if subj.dgst ≠ expectedSubject then
              .error "not a referrer for expected subject"
            else
              match manifest.layers.getLast? with
              | none => .error "invalid manifest"
              | some metaLayer =>
                if env.isNydusMetaLayer metaLayer.annotations then
                  .ok metaLayer
                else
                  .error "not a nydus manifest"

/-- The suffix loop of `checkReferrerTagBased`: try each configured tag suffix
in order, first candidate that validates wins. -/
def tryReferrerSuffixes (env : Env) (baseRef baseTag manifestDigest : String) :
    List String → Except String Descriptor
  | [] => .error "no tag-based referrer found"
  | suffix :: rest =>
    let candidateRef := baseRef ++ ":" ++ baseTag ++ suffix
    match validateTagBasedReferrer env candidateRef manifestDigest with
    | .ok desc => .ok desc
    | .error _ => tryReferrerSuffixes env baseRef baseTag manifestDigest rest

/-- `checkReferrerTagBased`: tag-based referrer discovery.  Splits `ref` on
`:`; fewer than two parts is the error `invalid reference format`; otherwise
the last part is the base tag and the rest joined by `:` the base reference,
and each configured suffix is tried in order. -/
def checkReferrerTagBased (env : Env) (suffixes : List String) (ref : String)
    (manifestDigest : String) : Except String Descriptor :=
  let parts := goSplitColon ref
  if parts.length < 2 then
    .error "invalid reference format"
  else
    let baseTag := parts.getLastD ""
    let baseRef := goJoinColon parts.dropLast
    tryReferrerSuffixes env baseRef baseTag manifestDigest suffixes

/-- The `handle` closure of `checkReferrer`: standard referrer API first,
tag-based discovery as fallback on any standard-path error. -/
def checkReferrerHandle (env : Env) (suffixes : List String) (ref : String)
    (manifestDigest : String) : Except String Descriptor :=
  match checkReferrerStandard env ref manifestDigest with
  | .ok desc => .ok desc
  | .error _ => checkReferrerTagBased env suffixes ref manifestDigest

/-- The remote wrapper state of `checkReferrer`: the behaviour of the external
client over the initial (secure) transport, its behaviour after
`RetryWithPlainHTTP` has switched the remote to plain HTTP, and the
classification predicate itself (`remote.RetryWithPlainHTTP(ref, err)`). -/
structure RemoteEnv where
  secure : Env
  plain : Env
  retryWithPlainHTTP : String → String → Bool

/-- `checkReferrer`: run the two-path resolution once; if it fails with an
error the client classifies as retryable over plain HTTP, run the whole
two-path resolution once more (over the plain transport) and return that
second result as-is. -/
def checkReferrer (renv : RemoteEnv) (suffixes : List String) (ref : String)
    (manifestDigest : String) : Except String Descriptor :=
  match checkReferrerHandle renv.secure suffixes ref manifestDigest with
  | .ok desc => .ok desc
  | .error e =>
    if renv.retryWithPlainHTTP ref e then
      checkReferrerHandle renv.plain suffixes ref manifestDigest
    else
      .error e

end NydusReferrer

namespace NydusRemote

/-- The local filesystem visible to the writer: an association from paths to
file contents (byte lists).  Only the target directory matters to the core. -/
abbrev Fs := List (String × List Nat)

/-- Contents of the file at `p`, if it exists. -/
def lookupFile (fs : Fs) (p : String) : Option (List Nat) :=
  match fs with
  | [] => none
  | (q, c) :: rest => if q = p then some c else lookupFile rest p

/-- Make `p` refer to contents `c`, replacing any previous entry. -/
def setFile (fs : Fs) (p : String) (c : List Nat) : Fs :=
  match fs with
  | [] => [(p, c)]
  | (q, d) :: rest => if q = p then (p, c) :: rest else (q, d) :: setFile rest p c

/-- `atomicWrite` of `pkg/remote/unpack.go`: stage the bytes in an anonymous
`O_TMPFILE` inode (invisible, so staging and `Sync` leave the visible
filesystem unchanged), then `linkat` the inode to `target`.  If the target
does not yet exist the link succeeds; on `EEXIST` the source links the inode
under a salted staging name and `os.Rename`s it onto `target`, atomically
replacing the old contents (rename consumes the staging name).  Either way
the one visible transition is: `target` now holds exactly `content`. -/
def atomicWrite (target : String) (content : List Nat) (fs : Fs) :
    Except String Unit × Fs :=
  match lookupFile fs target with
  | none => (.ok (), setFile fs target content)
  | some _ => (.ok (), setFile fs target content)

/-- One entry of the decompressed tar stream: header name plus raw bytes. -/
structure TarEntry where
  name : String
  content : List Nat
deriving Repr, DecidableEq

/-- The scan loop of `Unpack`: advance through tar entries until one is named
`source`; write it atomically and stop, or fail with not-found at EOF. -/
def unpackScan (source target : String) (fs : Fs) :
    List TarEntry → Except String Unit × Fs
  | [] => (.error ("not found file " ++ source ++ " in tar"), fs)
  | entry :: rest =>
    if entry.name = source then
      atomicWrite target entry.content fs
    else
      unpackScan source target fs rest

/-- `Unpack`: decompress the stream (`compression.DecompressStream`, an
external decoder whose outcome — the entry list, or a decompression error —
is the `stream` argument), then scan for the entry named `source` and write
it atomically to `target`. -/
def Unpack (stream : Except String (List TarEntry)) (source target : String)
    (fs : Fs) : Except String Unit × Fs :=
  match stream with
  | .error e => (.error e, fs)
  | .ok entries => unpackScan source target fs entries

end NydusRemote

namespace NydusFilesystem

open NydusRemote

/-- `snpkg.TargetRefLabel`. -/
def targetRefLabel : String := "containerd.io/snapshot/cri.image-ref"

/-- `snpkg.TargetManifestDigestLabel`. -/
def targetManifestDigestLabel : String := "containerd.io/snapshot/cri.manifest-digest"

/-- Go map lookup `labels[k]` with the ok flag (`v, ok := labels[k]`). -/
def lookupLabel (labels : List (String × String)) (k : String) : Option String :=
  match labels with
  | [] => none
  | (q, v) :: rest => if q = k then some v else lookupLabel rest k

/-- Go map lookup `labels[k]` without the ok flag: missing keys give `""`. -/
def lookupLabelD (labels : List (String × String)) (k : String) : String :=
  (lookupLabel labels k).getD ""

/-- State threaded through the coordinator: the visible filesystem, plus a
counter of resolver/registry operations performed (each manager fetch is one
network round of resolve + fetch work). -/
structure CoordState where
  files : Fs
  netOps : Nat
deriving Repr, DecidableEq

/-- Environment of the coordinator: the snapshot labels, the external digest
validator (`digest.Digest.Validate` of go-digest), and the outcome the
referrer manager's resolve-fetch-unpack sequence would produce (the bytes it
would leave at the destination, or its error). -/
structure CoordEnv where
  labels : List (String × String)
  validateDigest : String → Bool
  fetchOutcome : Except String (List Nat)

/-- Modelled from the spec: `referrerMgr.TryFetchMetadata` (the manager side,
absent from the sources — only its caller is present).  Per §4.3 steps 4–5 it
resolves the referrer descriptor, fetches its byte stream from the registry
(network work, counted here), and passes it to the atomic writer: on success
the destination holds the metadata bytes; on failure the error propagates and
any partially-visible destination is removed best-effort, leaving it clean. -/
def managerTryFetchMetadata (outcome : Except String (List Nat))
    (destPath : String) (st : CoordState) : Except String Unit × CoordState :=
  match outcome with
  | .ok content =>
    (.ok (), ⟨(atomicWrite destPath content st.files).2, st.netOps + 1⟩)
  | .error e => (.error e, ⟨st.files, st.netOps + 1⟩)

/-- `Filesystem.TryFetchMetadata`: require the image-ref label, validate the
manifest-digest label, acquire the per-path mutex (a no-op in this sequential
model), return success at once if `metadataPath` already exists (`os.Stat`),
and otherwise delegate to the referrer manager. -/
def TryFetchMetadata (env : CoordEnv) (metadataPath : String)
    (st : CoordState) : Except String Unit × CoordState :=
  match lookupLabel env.labels targetRefLabel with
  | none => (.error ("empty label " ++ targetRefLabel), st)
  | some _ =>
    let manifestDigest := lookupLabelD env.labels targetManifestDigestLabel
    if env.validateDigest manifestDigest = false then
      (.error ("invalid label " ++ targetManifestDigestLabel ++ "="
        ++ manifestDigest), st)
    else
      if (lookupFile st.files metadataPath).isSome then
        (.ok (), st)
      else
        match managerTryFetchMetadata env.fetchOutcome metadataPath st with
        | (.ok _, st') => (.ok (), st')
        | (.error e, st') => (.error ("try fetch metadata: " ++ e), st')

/-- A coordinator environment with well-formed labels, a digest validator
accepting `sha256:subj`, and a manager fetch that succeeds with bytes
`[7, 8]`. -/
def coordEnv0 : CoordEnv :=
  { labels := [(targetRefLabel, "registry.example.com/repo:tag"),
               (targetManifestDigestLabel, "sha256:subj")]
    validateDigest := fun dg => dg == "sha256:subj"
    fetchOutcome := .ok [7, 8] }

end NydusFilesystem

namespace NydusReferrer

/-- Annotation key marking a nydus bootstrap (meta) layer; the external label
predicate `label.IsNydusMetaLayer` checks for its presence. -/
def nydusBootstrapKey : String := "containerd.io/snapshot/nydus-bootstrap"

/-- A concrete nydus metadata layer descriptor used as test fixture. -/
def layer0 : Descriptor :=
  { mediaType := "application/vnd.oci.image.layer.v1.tar+gzip"
    dgst := "sha256:bbbb", size := 42
    annotations := [(nydusBootstrapKey, "true")] }

/-- A concrete referrer manifest whose subject digest is `sha256:subj` and
whose last (only) layer is `layer0`. -/
def man0 : Manifest :=
  { layers := [layer0]
    subject := some { mediaType := "application/vnd.oci.image.manifest.v1+json"
                      dgst := "sha256:subj", size := 7, annotations := [] } }

/-- A registry in which the referrers API is unsupported and exactly the
reference `cand` resolves; its manifest is `man0`. -/
def envAccept (cand : String) : Env :=
  { getFetcher := fun _ => .ok ()
    fetchReferrers := fun _ => .error "referrers API unsupported"
    unmarshalIndex := fun _ => .error "invalid character"
    fetchBytes := fun _ => .ok [1, 2, 3]
    unmarshalManifest := fun bs =>
      if bs = [1, 2, 3] then .ok man0 else .error "invalid character"
    resolve := fun r =>
      if r = cand then
        .ok { mediaType := "", dgst := "sha256:cccc", size := 3, annotations := [] }
      else .error "not found"
    isNydusMetaLayer := fun ann => ann.any (fun p => p.1 = nydusBootstrapKey) }

/-- A referrer-manifest descriptor as listed in a referrer index. -/
def descA : Descriptor :=
  { mediaType := "application/vnd.oci.image.manifest.v1+json"
    dgst := "sha256:aaaa", size := 3, annotations := [] }

/-- A one-entry referrer index listing `descA`. -/
def idx0 : Index := { manifests := [descA] }

/-- A registry whose referrers API succeeds with the index `idx0`, whose
first listed manifest parses to `man0`. -/
def envStd : Env :=
  { getFetcher := fun _ => .ok ()
    fetchReferrers := fun _ => .ok [9, 9]
    unmarshalIndex := fun bs => if bs = [9, 9] then .ok idx0 else .error "invalid character"
    fetchBytes := fun _ => .ok [1, 2, 3]
    unmarshalManifest := fun bs =>
      if bs = [1, 2, 3] then .ok man0 else .error "invalid character"
    resolve := fun _ => .error "not found"
    isNydusMetaLayer := fun ann => ann.any (fun p => p.1 = nydusBootstrapKey) }

/-- A referrer manifest with a nydus meta layer but the WRONG subject digest
(`sha256:other`). -/
def man1 : Manifest :=
  { layers := [layer0]
    subject := some { mediaType := "application/vnd.oci.image.manifest.v1+json"
                      dgst := "sha256:other", size := 7, annotations := [] } }

/-- A registry where every candidate resolves and its manifest is `man1`
(valid-looking artifact bound to the wrong subject). -/
def envMis : Env :=
  { getFetcher := fun _ => .ok ()
    fetchReferrers := fun _ => .error "referrers API unsupported"
    unmarshalIndex := fun _ => .error "invalid character"
    fetchBytes := fun _ => .ok [4, 5]
    unmarshalManifest := fun bs =>
      if bs = [4, 5] then .ok man1 else .error "invalid character"
    resolve := fun _ => .ok descA
    isNydusMetaLayer := fun ann => ann.any (fun p => p.1 = nydusBootstrapKey) }

/-- A remote whose two-path resolution always fails and always classifies the
failure as retryable over plain HTTP. -/
def renvW : RemoteEnv :=
  { secure := envAccept "unreachable"
    plain := envAccept "unreachable"
    retryWithPlainHTTP := fun _ _ => true }

/-- A syntactically valid referrer-index JSON document (one listed manifest,
matching `idx0`). -/
def idxJson : String :=
  "\x7b\"schemaVersion\":2,\"mediaType\":\"application/vnd.oci.image.index.v1+json\",\"manifests\":[\x7b\"mediaType\":\"application/vnd.oci.image.manifest.v1+json\",\"digest\":\"sha256:aaaa\",\"size\":3\x7d]\x7d"

/-- The bytes of `idxJson`. -/
def idxJsonBytes : List Nat := idxJson.toList.map Char.toNat

/-- An oversized referrer-index response: `idxJson` padded with trailing
spaces (byte 32) to one byte over the 8 MiB cap.  JSON tolerates trailing
whitespace, so the whole response — and every truncation of it that keeps the
document intact — decodes to `idx0`. -/
def respC7 : List Nat :=
  idxJsonBytes ++ List.replicate (maxManifestIndexSize + 1 - idxJsonBytes.length) 32

/-- A registry serving the oversized index response `respC7`.  Its JSON
decoder accepts exactly the documents real `json.Unmarshal` would accept on
this family of inputs: `idxJson` followed by any run of spaces. -/
def envC7 : Env :=
  { getFetcher := fun _ => .ok ()
    fetchReferrers := fun _ => .ok respC7
    unmarshalIndex := fun bs =>
      if idxJsonBytes.length ≤ bs.length
          ∧ bs.take idxJsonBytes.length = idxJsonBytes
          ∧ (bs.drop idxJsonBytes.length).all (fun b => b == 32) then
        .ok idx0
      else
        .error "unexpected end of JSON input"
    fetchBytes := fun _ => .ok [1, 2, 3]
    unmarshalManifest := fun bs =>
      if bs = [1, 2, 3] then .ok man0 else .error "invalid character"
    resolve := fun _ => .error "not found"
    isNydusMetaLayer := fun ann => ann.any (fun p => p.1 = nydusBootstrapKey) }

/-- The same registry with its referrer-index response truncated to the
8 MiB cap at the source. -/
def truncEnv (env : Env) : Env :=
  { env with fetchReferrers := fun d =>
      (env.fetchReferrers d).map (List.take maxManifestIndexSize) }

/-- C3: the claim says a digest-only reference is a hard error for tag-based
candidate generation.  In the code, `strings.Split(ref, ":")` on
`registry.example.com/repo@sha256:abc123` yields two parts (the digest itself
holds the colon), so no error is raised: the digest hex `abc123` becomes the
base tag and discovery proceeds — and even succeeds when the digest-derived
candidate `registry.example.com/repo@sha256:abc123-nydus` validates.  The
package's own tests (`TestParseDockerReference`,
`TestReferrerGenerateReferrerCandidates`) expect the claimed hard error. -/
theorem digest_only_reference_derives_candidates :
    checkReferrerTagBased (envAccept "registry.example.com/repo@sha256:abc123-nydus")
      ["-nydus"] "registry.example.com/repo@sha256:abc123" "sha256:subj" =
    .ok layer0 := rfl

/-- C4: the claim says a reference with neither tag nor digest falls back to
base tag `latest`.  In the code, `strings.Split` on
`registry.example.com/repo` yields a single part, so tag-based fallback
returns the hard error `invalid reference format`; the latest-suffixed
candidate is never tried even when it would validate.  The package's own
tests expect the `latest` default. -/
theorem no_tag_reference_hard_errors :
    checkReferrerTagBased (envAccept "registry.example.com/repo:latest-nydus")
      ["-opt", "-nydus", ".custom"] "registry.example.com/repo" "sha256:subj" =
    .error "invalid reference format" := rfl

/-- C5: the claim says a `repo:tag@sha256:...` reference has exactly the tag
extracted, giving candidates `repo:tag<suffix>`.  In the code, the LAST
colon-separated part — the digest hex — becomes the base tag: the claimed
candidate `registry.example.com/repo:tag-opt` is never tried (left: discovery
fails in a registry holding only it), and the digest-suffixed candidate
`registry.example.com/repo:tag@sha256:abc123def456-opt` is what discovery
actually tries (right: it succeeds in a registry holding only it).  The
package's own tests expect the tag-only candidates. -/
theorem tag_digest_reference_uses_digest_part :
    checkReferrerTagBased (envAccept "registry.example.com/repo:tag-opt")
      ["-opt"] "registry.example.com/repo:tag@sha256:abc123def456" "sha256:subj" =
      .error "no tag-based referrer found"
    ∧ checkReferrerTagBased
        (envAccept "registry.example.com/repo:tag@sha256:abc123def456-opt")
        ["-opt"] "registry.example.com/repo:tag@sha256:abc123def456" "sha256:subj" =
      .ok layer0 :=
  ⟨rfl, rfl⟩

/-- Standards-based resolution, success shape: when every external step
succeeds and the last layer of the first listed manifest carries the marker,
that layer is returned. -/
theorem checkReferrerStandard_eq_ok (env : Env) (ref d : String)
    (resp : List Nat) (index : Index) (m : Descriptor) (ms : List Descriptor)
    (mbytes : List Nat) (manifest : Manifest) (metaLayer : Descriptor)
    (hf : env.getFetcher ref = .ok ())
    (hr : env.fetchReferrers d = .ok resp)
    (hu : env.unmarshalIndex (resp.take maxManifestIndexSize) = .ok index)
    (hm : index.manifests = m :: ms)
    (hb : env.fetchBytes m = .ok mbytes)
    (hmu : env.unmarshalManifest mbytes = .ok manifest)
    (hl : manifest.layers.getLast? = some metaLayer)
    (hmark : env.isNydusMetaLayer metaLayer.annotations = true) :
    checkReferrerStandard env ref d = .ok metaLayer := by
  simp [checkReferrerStandard, hf, hr, hu, hm, hb, hmu, hl, hmark]

/-- Standards-based resolution, missing-marker shape: the same run with the
marker absent from the last layer fails softly with `invalid nydus
manifest`. -/
theorem checkReferrerStandard_eq_error_of_no_marker (env : Env) (ref d : String)
    (resp : List Nat) (index : Index) (m : Descriptor) (ms : List Descriptor)
    (mbytes : List Nat) (manifest : Manifest) (metaLayer : Descriptor)
    (hf : env.getFetcher ref = .ok ())
    (hr : env.fetchReferrers d = .ok resp)
    (hu : env.unmarshalIndex (resp.take maxManifestIndexSize) = .ok index)
    (hm : index.manifests = m :: ms)
    (hb : env.fetchBytes m = .ok mbytes)
    (hmu : env.unmarshalManifest mbytes = .ok manifest)
    (hl : manifest.layers.getLast? = some metaLayer)
    (hmark : env.isNydusMetaLayer metaLayer.annotations = false) :
    checkReferrerStandard env ref d = .error "invalid nydus manifest" := by
  simp [checkReferrerStandard, hf, hr, hu, hm, hb, hmu, hl, hmark]

/-- C1: for a referrer-index response with at least one manifest entry,
standards-based resolution fetches the first listed manifest and returns its
last layer when that layer carries the nydus meta-layer marker; when the last
layer lacks the marker, `checkReferrer`'s handle proceeds to the tag-based
fallback path instead of failing hard. -/
theorem standard_resolution_last_layer_and_fallback (env : Env) (ref d : String)
    (resp : List Nat) (index : Index) (m : Descriptor) (ms : List Descriptor)
    (mbytes : List Nat) (manifest : Manifest) (metaLayer : Descriptor)
    (hf : env.getFetcher ref = .ok ())
    (hr : env.fetchReferrers d = .ok resp)
    (hu : env.unmarshalIndex (resp.take maxManifestIndexSize) = .ok index)
    (hm : index.manifests = m :: ms)
    (hb : env.fetchBytes m = .ok mbytes)
    (hmu : env.unmarshalManifest mbytes = .ok manifest)
    (hl : manifest.layers.getLast? = some metaLayer) :
    (env.isNydusMetaLayer metaLayer.annotations = true →
      checkReferrerStandard env ref d = .ok metaLayer)
    ∧ (env.isNydusMetaLayer metaLayer.annotations = false →
      ∀ suffixes, checkReferrerHandle env suffixes ref d =
        checkReferrerTagBased env suffixes ref d) := by
  constructor
  · intro hmark
    exact checkReferrerStandard_eq_ok env ref d resp index m ms mbytes manifest
      metaLayer hf hr hu hm hb hmu hl hmark
  · intro hmark suffixes
    have herr := checkReferrerStandard_eq_error_of_no_marker env ref d resp index
      m ms mbytes manifest metaLayer hf hr hu hm hb hmu hl hmark
    simp [checkReferrerHandle, herr]

/-- C1 witness: in the registry `envStd` the standards path returns the last
layer `layer0` of the first listed manifest. -/
theorem standard_resolution_last_layer_and_fallback_witness :
    checkReferrerStandard envStd "registry.example.com/repo:tag" "sha256:subj" =
      .ok layer0 :=
  (standard_resolution_last_layer_and_fallback envStd
    "registry.example.com/repo:tag" "sha256:subj" [9, 9] idx0 descA []
    [1, 2, 3] man0 layer0 rfl rfl rfl rfl rfl rfl rfl).1 rfl

/-- C2: tag-based candidate validation rejects a candidate manifest whose
subject is absent or whose subject digest differs from the expected manifest
digest — even when its last layer carries the nydus marker — and the suffix
loop then moves on to the next candidate. -/
theorem tag_candidate_subject_mismatch_rejected (env : Env)
    (candidateRef expected : String) (desc : Descriptor)
    (mbytes : List Nat) (manifest : Manifest) (metaLayer : Descriptor)
    (hres : env.resolve candidateRef = .ok desc)
    (hf : env.getFetcher candidateRef = .ok ())
    (hb : env.fetchBytes desc = .ok mbytes)
    (hmu : env.unmarshalManifest mbytes = .ok manifest)
    (hsubj : manifest.subject = none
      ∨ ∃ s, manifest.subject = some s ∧ s.dgst ≠ expected)
    (_hl : manifest.layers.getLast? = some metaLayer)
    (_hmark : env.isNydusMetaLayer metaLayer.annotations = true) :
    validateTagBasedReferrer env candidateRef expected =
      .error "not a referrer for expected subject"
    ∧ ∀ (baseRef baseTag sfx : String) (rest : List String),
        baseRef ++ ":" ++ baseTag ++ sfx = candidateRef →
        tryReferrerSuffixes env baseRef baseTag expected (sfx :: rest) =
          tryReferrerSuffixes env baseRef baseTag expected rest := by
  have hval : validateTagBasedReferrer env candidateRef expected =
      .error "not a referrer for expected subject" := by
    rcases hsubj with hnone | ⟨s, hs, hne⟩
    · simp [validateTagBasedReferrer, hres, hf, hb, hmu, hnone]
    · simp [validateTagBasedReferrer, hres, hf, hb, hmu, hs, hne]
  refine ⟨hval, ?_⟩
  intro baseRef baseTag sfx rest hcand
  simp only [tryReferrerSuffixes, hcand, hval]

/-- C2 witness: in the registry `envMis` the candidate manifest `man1` has a
nydus meta layer but subject digest `sha256:other`; validation against the
expected digest `sha256:subj` rejects it. -/
theorem tag_candidate_subject_mismatch_rejected_witness :
    validateTagBasedReferrer envMis "registry.example.com/repo:tag-nydus"
      "sha256:subj" = .error "not a referrer for expected subject" :=
  (tag_candidate_subject_mismatch_rejected envMis
    "registry.example.com/repo:tag-nydus" "sha256:subj" descA [4, 5] man1
    layer0 rfl rfl rfl rfl (Or.inr ⟨_, rfl, by decide⟩) rfl rfl).1

/-- C6: when the two-path resolution fails with an error the external client
classifies as retryable over plain HTTP, the entire two-path resolution is
re-run exactly once (the result IS one fresh run of the whole handle over the
plain transport — no per-step retry), and a failure of that second run is
returned to the caller as-is. -/
theorem whole_resolution_retried_once (renv : RemoteEnv)
    (suffixes : List String) (ref d e : String)
    (h1 : checkReferrerHandle renv.secure suffixes ref d = .error e)
    (hretry : renv.retryWithPlainHTTP ref e = true) :
    checkReferrer renv suffixes ref d =
      checkReferrerHandle renv.plain suffixes ref d
    ∧ ∀ e2, checkReferrerHandle renv.plain suffixes ref d = .error e2 →
        checkReferrer renv suffixes ref d = .error e2 := by
  have hmain : checkReferrer renv suffixes ref d =
      checkReferrerHandle renv.plain suffixes ref d := by
    simp [checkReferrer, h1, hretry]
  exact ⟨hmain, fun e2 h2 => hmain.trans h2⟩

/-- C6 witness: in the remote `renvW` both runs of the two-path resolution
fail; the classifier asks for the plain-HTTP retry, and the second run's
failure is what the caller receives. -/
theorem whole_resolution_retried_once_witness :
    checkReferrer renvW ["-nydus"] "localhost/repo" "sha256:subj" =
      .error "invalid reference format" :=
  (whole_resolution_retried_once renvW ["-nydus"] "localhost/repo"
    "sha256:subj" "invalid reference format" rfl rfl).2
    "invalid reference format" rfl

/-- C7 counterexample: the claim says a referrer-index response over 8 MiB is
a hard error before parsing, with no attempt to parse a truncated run of the
response.  In the code, `io.ReadAll(io.LimitReader(rc, maxManifestIndexSize))`
silently truncates to 8 MiB and `json.Unmarshal` runs on the truncated bytes:
for the 8 MiB + 1 response `respC7` (a valid index document padded with
trailing whitespace), the truncation still decodes, and standards-based
resolution SUCCEEDS rather than failing hard. -/
theorem oversized_index_not_hard_error :
    maxManifestIndexSize < respC7.length
    ∧ checkReferrerStandard envC7 "registry.example.com/repo:tag" "sha256:subj" =
        .ok layer0 := by
  have hL : idxJsonBytes.length ≤ maxManifestIndexSize := by decide
  have hlen : respC7.length = maxManifestIndexSize + 1 := by
    unfold respC7
    rw [List.length_append, List.length_replicate]
    omega
  have hbytes : respC7.take maxManifestIndexSize =
      idxJsonBytes ++ List.replicate (maxManifestIndexSize - idxJsonBytes.length) 32 := by
    unfold respC7
    rw [List.take_append_eq_append_take, List.take_of_length_le hL, List.take_replicate]
    congr 1
  have h1 : idxJsonBytes.length ≤
      (idxJsonBytes ++ List.replicate (maxManifestIndexSize - idxJsonBytes.length) 32).length := by
    rw [List.length_append]
    omega
  have h2 : (idxJsonBytes ++
      List.replicate (maxManifestIndexSize - idxJsonBytes.length) 32).take
      idxJsonBytes.length = idxJsonBytes := by
    rw [List.take_append_eq_append_take, List.take_of_length_le (Nat.le_refl _),
      Nat.sub_self, List.take_zero, List.append_nil]
  have h3 : ((idxJsonBytes ++
      List.replicate (maxManifestIndexSize - idxJsonBytes.length) 32).drop
      idxJsonBytes.length).all (fun b => b == 32) = true := by
    rw [List.drop_append_eq_append_drop, List.drop_length, Nat.sub_self,
      List.drop_zero, List.nil_append]
    simp [List.all_eq_true]
  have hunm : envC7.unmarshalIndex (respC7.take maxManifestIndexSize) = .ok idx0 := by
    rw [hbytes]
    simp only [envC7]
    rw [if_pos ⟨h1, h2, h3⟩]
  refine ⟨by rw [hlen]; omega, ?_⟩
  exact checkReferrerStandard_eq_ok envC7 "registry.example.com/repo:tag"
    "sha256:subj" respC7 idx0 descA [] [1, 2, 3] man0 layer0 rfl rfl hunm
    rfl rfl rfl rfl rfl

/-- C7 amended: standards-based resolution reads at most the first 8 MiB of
the referrer-index response — its result depends only on that much of the
response — and it parses the truncated run rather than rejecting an oversized
response outright. -/
theorem standard_resolution_reads_at_most_limit (env : Env) (ref d : String) :
    checkReferrerStandard (truncEnv env) ref d = checkReferrerStandard env ref d := by
  cases hf : env.getFetcher ref with
  | error e => simp [checkReferrerStandard, truncEnv, hf]
  | ok u =>
    cases hr : env.fetchReferrers d with
    | error e => simp [checkReferrerStandard, truncEnv, hf, hr, Except.map]
    | ok resp =>
      simp [checkReferrerStandard, truncEnv, hf, hr, Except.map, List.take_take]

end NydusReferrer

namespace NydusRemote

/-- Both arms of `atomicWrite` — the direct `linkat` when the target does not
yet exist, and the staging-name + `rename` path when it does — leave the
target holding exactly the staged content, with success. -/
theorem atomicWrite_eq (target : String) (content : List Nat) (fs : Fs) :
    atomicWrite target content fs = (.ok (), setFile fs target content) := by
  unfold atomicWrite
  cases lookupFile fs target <;> rfl

/-- C8: when the decompressed tar entries contain no entry named `source`,
`Unpack` fails with the not-found error and the filesystem — in particular
the target path, whether it was absent or held contents — is unchanged. -/
theorem unpack_missing_entry_not_found (entries : List TarEntry)
    (source target : String) (fs : Fs)
    (h : ∀ e ∈ entries, e.name ≠ source) :
    Unpack (.ok entries) source target fs =
      (.error ("not found file " ++ source ++ " in tar"), fs) := by
  simp only [Unpack]
  induction entries with
  | nil => simp [unpackScan]
  | cons e rest ih =>
    simp only [unpackScan]
    rw [if_neg (h e (List.mem_cons_self e rest))]
    exact ih (fun x hx => h x (List.mem_cons_of_mem e hx))

/-- C8 witness: a two-entry stream without `image/image.boot` leaves the
pre-existing target contents `[7]` in place and reports not-found. -/
theorem unpack_missing_entry_not_found_witness :
    Unpack (.ok [⟨"etc/passwd", [1, 2]⟩, ⟨"image/other", [3]⟩])
      "image/image.boot" "/snapshots/3/fs/image/image.boot"
      [("/snapshots/3/fs/image/image.boot", [7])] =
    (.error ("not found file " ++ "image/image.boot" ++ " in tar"),
      [("/snapshots/3/fs/image/image.boot", [7])]) :=
  unpack_missing_entry_not_found
    [⟨"etc/passwd", [1, 2]⟩, ⟨"image/other", [3]⟩]
    "image/image.boot" "/snapshots/3/fs/image/image.boot"
    [("/snapshots/3/fs/image/image.boot", [7])] (by decide)

/-- The scan loop writes the first entry named `source` and stops: the
entries after it never influence the outcome. -/
theorem unpackScan_first_match (e : TarEntry) (source target : String)
    (fs : Fs) (he : e.name = source) (l : List TarEntry)
    (hl : ∀ x ∈ l, x.name ≠ source) :
    ∀ post2, unpackScan source target fs (l ++ e :: post2) =
      (.ok (), setFile fs target e.content) := by
  induction l with
  | nil =>
    intro post2
    simp [unpackScan, he, atomicWrite_eq]
  | cons x rest ih =>
    intro post2
    rw [List.cons_append]
    simp only [unpackScan]
    rw [if_neg (hl x (List.mem_cons_self x rest))]
    exact ih (fun y hy => hl y (List.mem_cons_of_mem x hy)) post2

/-- C10: on a stream holding two or more entries named `source`, `Unpack`
writes exactly the bytes of the first such entry to the target and stops
scanning — the entries after the first match (in particular the later
same-named ones) are never read or written, so the outcome does not depend
on them at all. -/
theorem unpack_first_match_wins (pre : List TarEntry) (e : TarEntry)
    (post : List TarEntry) (source target : String) (fs : Fs)
    (hpre : ∀ x ∈ pre, x.name ≠ source) (he : e.name = source)
    (_hdup : ∃ x ∈ post, x.name = source) :
    Unpack (.ok (pre ++ e :: post)) source target fs =
      (.ok (), setFile fs target e.content)
    ∧ ∀ post2, Unpack (.ok (pre ++ e :: post2)) source target fs =
        Unpack (.ok (pre ++ e :: post)) source target fs := by
  have key := unpackScan_first_match e source target fs he pre hpre
  exact ⟨key post, fun post2 => (key post2).trans (key post).symm⟩

/-- C10 witness: two entries both named `image/image.boot`; the target ends
up with the first entry's bytes `[1, 2]`, not the second's. -/
theorem unpack_first_match_wins_witness :
    Unpack (.ok [⟨"image/image.boot", [1, 2]⟩, ⟨"image/image.boot", [3, 4]⟩])
      "image/image.boot" "/d/image.boot" [] =
    (.ok (), setFile [] "/d/image.boot" [1, 2]) :=
  (unpack_first_match_wins [] ⟨"image/image.boot", [1, 2]⟩
    [⟨"image/image.boot", [3, 4]⟩] "image/image.boot" "/d/image.boot" []
    (by decide) rfl (by decide)).1

end NydusRemote

namespace NydusFilesystem

open NydusRemote

/-- Looking up the path just written by `setFile` yields the new contents. -/
theorem lookupFile_setFile (fs : Fs) (p : String) (c : List Nat) :
    lookupFile (setFile fs p c) p = some c := by
  induction fs with
  | nil => simp [setFile, lookupFile]
  | cons hd tl ih =>
    obtain ⟨q, d⟩ := hd
    by_cases hq : q = p
    · simp [setFile, lookupFile, hq]
    · simp [setFile, lookupFile, hq, ih]

/-- C9: after a successful `TryFetchMetadata` call the destination exists,
and a second call in sequence for the same destination returns success with
the state unchanged — it takes the existence short-circuit inside the gate
and performs no resolver or registry-fetch work (the manager bumps the
network-operation counter on every run, and the counter does not move). -/
theorem tryFetchMetadata_idempotent (env : CoordEnv) (path : String)
    (st st2 : CoordState)
    (h : TryFetchMetadata env path st = (.ok (), st2)) :
    TryFetchMetadata env path st2 = (.ok (), st2)
    ∧ (lookupFile st2.files path).isSome = true := by
  simp only [TryFetchMetadata] at h ⊢
  cases hlab : lookupLabel env.labels targetRefLabel with
  | none =>
    rw [hlab] at h
    simp at h
  | some v =>
    rw [hlab] at h
    dsimp only at h
    by_cases hval : env.validateDigest (lookupLabelD env.labels targetManifestDigestLabel) = false
    · rw [if_pos hval] at h
      simp at h
    · rw [if_neg hval] at h ⊢
      by_cases hex : (lookupFile st.files path).isSome = true
      · rw [if_pos hex] at h
        injection h with h1 h2
        subst h2
        rw [if_pos hex]
        exact ⟨rfl, hex⟩
      · rw [if_neg hex] at h
        cases hout : env.fetchOutcome with
        | error e =>
          simp only [managerTryFetchMetadata, hout] at h
          simp at h
        | ok content =>
          simp only [managerTryFetchMetadata, hout, atomicWrite_eq] at h
          injection h with h1 h2
          have hex2 : (lookupFile st2.files path).isSome = true := by
            rw [← h2]
            simp [lookupFile_setFile]
          rw [if_pos hex2]
          exact ⟨rfl, hex2⟩

/-- C9 witness: a first call from an empty filesystem fetches and creates
`/d/image.boot` (one network operation); the second call returns success and
leaves the state — counter included — untouched. -/
theorem tryFetchMetadata_idempotent_witness :
    TryFetchMetadata coordEnv0 "/d/image.boot" ⟨[("/d/image.boot", [7, 8])], 1⟩ =
      (.ok (), ⟨[("/d/image.boot", [7, 8])], 1⟩) :=
  (tryFetchMetadata_idempotent coordEnv0 "/d/image.boot" ⟨[], 0⟩
    ⟨[("/d/image.boot", [7, 8])], 1⟩ rfl).1

end NydusFilesystem
